/-
Verification of the react-leaflet lifecycle-synchronization core.

This file gives a shallow embedding, in Lean 4, of the lifecycle core of
the react-leaflet repository and proves properties of it.

Modelling conventions:
* JavaScript object references (props objects, backend instances, handler
  maps, context objects) are modelled by natural-number identity tokens:
  reference equality in the source becomes `Nat` equality here.
* React hook state (`useRef`, `useState`, effect-dependency bookkeeping)
  becomes an explicit state record per hook; a render pass is a function
  from the state and the current props to the new state together with the
  list of backend calls ("events") that the render's commit phase issues.
* A `useEffect(f, deps)` is modelled faithfully to React semantics: the
  effect body runs after a render exactly when the dependency tuple differs
  from the dependency tuple of the previous render (and always on the first
  render); before a re-run, the previous run's cleanup executes.
* Backend mutations (addLayer, on/off, addAttribution, createPane, ...)
  are recorded as events and/or applied to explicit backend state
  (`Finset` registries, class lists), mirroring Leaflet's keyed registries.
-/
import Mathlib

namespace ReactLeaflet

/-! ## DOM class-name utilities (src dom.ts) -/

/-- JavaScript's `str.split(' ')`: cut the character sequence at every
single space, keeping empty segments. -/
def splitOnSpaceChar : List Char → List (List Char)
  | [] => [[]]
  | c :: rest =>
      match splitOnSpaceChar rest with
      | [] => [[c]]
      | cur :: done =>
          if c = ' ' then [] :: cur :: done
          else (c :: cur) :: done

/-- JavaScript's `String.prototype.split(' ')` on a Lean string. -/
def jsSplitSpace (s : String) : List String :=
  (splitOnSpaceChar s.toList).map (fun cs => String.mk cs)

/-- `splitClassName` from dom.ts: `className.split(' ').filter(Boolean)`
(a string is truthy exactly when non-empty). -/
def splitClassName (className : String) : List String :=
  (jsSplitSpace className).filter (fun s => s ≠ "")

/-- A single call into Leaflet's `DomUtil` class API. -/
inductive ClassOp where
  | add (cls : String)
  | remove (cls : String)
deriving DecidableEq, Repr

/-- `addClassName` from dom.ts: one `DomUtil.addClass` call per token. -/
def addClassName (className : String) : List ClassOp :=
  (splitClassName className).map ClassOp.add

/-- `removeClassName` from dom.ts: one `DomUtil.removeClass` call per token. -/
def removeClassName (className : String) : List ClassOp :=
  (splitClassName className).map ClassOp.remove

/-- `updateClassName(element?, prevClassName?, nextClassName?)` from dom.ts,
as the sequence of `DomUtil` calls it makes. `element` present is modelled
by `hasElement`; the string comparison `nextClassName !== prevClassName` is
value comparison on JS string primitives. -/
def updateClassName (hasElement : Bool) (prevClassName nextClassName : Option String) :
    List ClassOp :=
  if hasElement ∧ nextClassName ≠ prevClassName then
    (match prevClassName with
      | some prev => if prev.length > 0 then removeClassName prev else []
      | none => []) ++
    (match nextClassName with
      | some next => if next.length > 0 then addClassName next else []
      | none => [])
  else []

/-- Effect of `DomUtil.addClass` / `DomUtil.removeClass` on an element's
class list: `addClass` appends the token when absent, `removeClass` drops
every occurrence. -/
def applyClassOp (classes : List String) : ClassOp → List String
  | .add cls => if cls ∈ classes then classes else classes ++ [cls]
  | .remove cls => classes.filter (fun c => c ≠ cls)

/-- Run a sequence of `DomUtil` calls against an element's class list. -/
def applyClassOps (classes : List String) (ops : List ClassOp) : List String :=
  ops.foldl applyClassOp classes

/-! ## `withPane` (packages/core/src/pane.ts) -/

/-- The slice of a layer-props object that `withPane` looks at, plus an
opaque remainder standing for every other field. `pane = none` models a
missing/undefined `pane` key. -/
structure LayerPropsObj where
  pane : Option String
  rest : Nat
deriving DecidableEq, Repr

/-- The slice of the Leaflet context that `withPane` looks at. -/
structure PaneContext where
  pane : Option String
deriving DecidableEq, Repr

/-- `withPane` from packages/core/src/pane.ts:
`const pane = props.pane ?? context.pane; return pane ? { ...props, pane } : props`.
`??` falls through only on null/undefined; the conditional tests JS string
truthiness, so an empty string leaves `props` unchanged. -/
def withPane (props : LayerPropsObj) (context : PaneContext) : LayerPropsObj :=
  let pane := match props.pane with
    | some p => some p
    | none => context.pane
  match pane with
  | some p => if p ≠ "" then { props with pane := some p } else props
  | none => props

/-! ## Element lifecycle core (packages/core/src/element.ts) -/

/-- `LeafletElement` from element.ts: the frozen record pairing the created
backend instance with the context used to create it. Instances and contexts
are identity tokens. -/
structure LeafletElement where
  instance_ : Nat
  context : Nat
  container : Option Nat := none
deriving DecidableEq, Repr

/-- A call made by the element hooks: the `createElement` callback or the
`updateElement` callback. -/
inductive ElemEvent where
  | create (props context : Nat)
  | update (instance_ props prevProps : Nat)
deriving DecidableEq, Repr

/-- Hook state of `useMutableLeafletElement` (element.ts, update branch):
`elementRef`, `propsRef` (both `useRef`) and React's record of the
`updateElementProps` effect's dependency tuple `[instance, props, context]`
from the previous render (`none` before the first render). -/
structure MutableElemState where
  elementRef : Option LeafletElement
  propsRef : Option Nat
  prevDeps : Option (Nat × Nat × Nat)
deriving DecidableEq, Repr

/-- The state of the hook before its owning component's first render. -/
def MutableElemState.initial : MutableElemState :=
  ⟨none, none, none⟩

/-- One render of `useMutableLeafletElement` with props reference `p` and
context reference `c`, followed by its commit phase. The render body
creates the element when `elementRef.current` is unset and initializes
`propsRef` on the first render; the `updateElementProps` effect (deps
`[instance, props, context]`) then runs when its deps changed, calling
`updateElement` exactly when `propsRef.current !== props` and recording the
new props. Events list the `createElement`/`updateElement` calls in order. -/
def renderMutable (createElement : Nat → Nat → LeafletElement)
    (s : MutableElemState) (p c : Nat) : MutableElemState × List ElemEvent :=
  -- render body
  let created := match s.elementRef with
    | none => (createElement p c, [ElemEvent.create p c])
    | some e => (e, [])
  let elt := created.1
  let propsRef0 := match s.propsRef with
    | none => p          -- useRef(props): seeded with the first render's props
    | some r => r
  -- commit phase: effect updateElementProps, deps [instance, props, context]
  let deps := (elt.instance_, p, c)
  let effectRuns := s.prevDeps ≠ some deps
  let updated :=
    if effectRuns then
      if propsRef0 ≠ p then (p, [ElemEvent.update elt.instance_ p propsRef0])
      else (propsRef0, [])
    else (propsRef0, [])
  (⟨some elt, some updated.1, some deps⟩, created.2 ++ updated.2)

/-- Hook state of `useImmutableLeafletElement` (element.ts, no-update
branch): just `elementRef`. -/
def ImmutableElemState := Option LeafletElement
deriving DecidableEq

/-- One render of `useImmutableLeafletElement`: create on first render,
afterwards return the stored element; props changes are ignored. -/
def renderImmutable (createElement : Nat → Nat → LeafletElement)
    (s : ImmutableElemState) (p c : Nat) : ImmutableElemState × List ElemEvent :=
  match s with
  | none => (some (createElement p c), [ElemEvent.create p c])
  | some e => (some e, [])

/-- A whole sequence of renders of `useMutableLeafletElement` for one
component instance, from the pre-mount state, accumulating events. -/
def runMutable (createElement : Nat → Nat → LeafletElement)
    (inputs : List (Nat × Nat)) : MutableElemState × List ElemEvent :=
  inputs.foldl
    (fun acc pc =>
      let step := renderMutable createElement acc.1 pc.1 pc.2
      (step.1, acc.2 ++ step.2))
    (MutableElemState.initial, [])

/-- A whole sequence of renders of `useImmutableLeafletElement`. -/
def runImmutable (createElement : Nat → Nat → LeafletElement)
    (inputs : List (Nat × Nat)) : ImmutableElemState × List ElemEvent :=
  inputs.foldl
    (fun acc pc =>
      let step := renderImmutable createElement acc.1 pc.1 pc.2
      (step.1, acc.2 ++ step.2))
    ((none : ImmutableElemState), [])

/-- Recognises `createElement` calls among element-hook events. -/
def ElemEvent.isCreate : ElemEvent → Bool
  | .create _ _ => true
  | .update _ _ _ => false

/-- The first render of `useMutableLeafletElement` creates the element,
seeds `propsRef` with the first props, and issues no update call. -/
lemma renderMutable_initial (ce : Nat → Nat → LeafletElement) (p c : Nat) :
    renderMutable ce MutableElemState.initial p c =
      (⟨some (ce p c), some p, some ((ce p c).instance_, p, c)⟩,
        [ElemEvent.create p c]) := by
  simp [renderMutable, MutableElemState.initial]

/-- Once the element exists, a render of `useMutableLeafletElement` keeps
the stored element and calls `createElement` no further time. -/
lemma renderMutable_some (ce : Nat → Nat → LeafletElement) (s : MutableElemState)
    (p c : Nat) (e : LeafletElement) (hs : s.elementRef = some e) :
    (renderMutable ce s p c).1.elementRef = some e ∧
    (renderMutable ce s p c).2.filter ElemEvent.isCreate = [] := by
  constructor
  · simp [renderMutable, hs]
  · simp only [renderMutable, hs]
    split <;> split <;> simp [ElemEvent.isCreate]

/-- Folding further renders over a state that already holds an element
never changes the element and never produces another create event. -/
lemma runMutable_foldl_some (ce : Nat → Nat → LeafletElement)
    (inputs : List (Nat × Nat)) (s : MutableElemState) (evs : List ElemEvent)
    (e : LeafletElement) (hs : s.elementRef = some e) :
    (inputs.foldl
      (fun acc pc =>
        let step := renderMutable ce acc.1 pc.1 pc.2
        (step.1, acc.2 ++ step.2)) (s, evs)).1.elementRef = some e ∧
    (inputs.foldl
      (fun acc pc =>
        let step := renderMutable ce acc.1 pc.1 pc.2
        (step.1, acc.2 ++ step.2)) (s, evs)).2.filter ElemEvent.isCreate =
      evs.filter ElemEvent.isCreate := by
  induction inputs generalizing s evs with
  | nil => exact ⟨hs, rfl⟩
  | cons pc rest ih =>
    obtain ⟨h1, h2⟩ := renderMutable_some ce s pc.1 pc.2 e hs
    obtain ⟨ih1, ih2⟩ := ih (renderMutable ce s pc.1 pc.2).1
      (evs ++ (renderMutable ce s pc.1 pc.2).2) h1
    refine ⟨ih1, ?_⟩
    rw [List.foldl_cons] at *
    simpa [List.filter_append, h2] using ih2

/-- Same fold lemma for `useImmutableLeafletElement`. -/
lemma runImmutable_foldl_some (ce : Nat → Nat → LeafletElement)
    (inputs : List (Nat × Nat)) (s : ImmutableElemState) (evs : List ElemEvent)
    (e : LeafletElement) (hs : s = some e) :
    (inputs.foldl
      (fun acc pc =>
        let step := renderImmutable ce acc.1 pc.1 pc.2
        (step.1, acc.2 ++ step.2)) (s, evs)).1 = some e ∧
    (inputs.foldl
      (fun acc pc =>
        let step := renderImmutable ce acc.1 pc.1 pc.2
        (step.1, acc.2 ++ step.2)) (s, evs)).2.filter ElemEvent.isCreate =
      evs.filter ElemEvent.isCreate := by
  induction inputs generalizing s evs with
  | nil => exact ⟨hs, rfl⟩
  | cons pc rest ih =>
    subst hs
    have h := ih (some e) (evs ++ []) rfl
    rw [List.foldl_cons]
    simpa [renderImmutable] using h

/-- C1: for every mounted component instance, the activator returned by
`createElementHook` (both the mutable and the immutable variant) calls
`createElement` exactly once — on the first activation — and on every
subsequent activation returns the same element handle with the same
backend instance reference; the instance is never re-created while the
component stays mounted, no matter how the props reference changes. -/
theorem createElementHook_creates_once (ce : Nat → Nat → LeafletElement)
    (p₀ c₀ : Nat) (rest : List (Nat × Nat)) :
    ((runMutable ce ((p₀, c₀) :: rest)).2.filter ElemEvent.isCreate =
        [ElemEvent.create p₀ c₀]) ∧
    (∀ pre suf, rest = pre ++ suf →
        (runMutable ce ((p₀, c₀) :: pre)).1.elementRef = some (ce p₀ c₀)) ∧
    ((runImmutable ce ((p₀, c₀) :: rest)).2.filter ElemEvent.isCreate =
        [ElemEvent.create p₀ c₀]) ∧
    (∀ pre suf, rest = pre ++ suf →
        (runImmutable ce ((p₀, c₀) :: pre)).1 = some (ce p₀ c₀)) := by
  refine ⟨?_, ?_, ?_, ?_⟩
  · have h := runMutable_foldl_some ce rest
      (renderMutable ce MutableElemState.initial p₀ c₀).1
      ([] ++ (renderMutable ce MutableElemState.initial p₀ c₀).2)
      (ce p₀ c₀) (by rw [renderMutable_initial])
    simpa [runMutable, renderMutable_initial, ElemEvent.isCreate] using h.2
  · intro pre suf _
    have h := runMutable_foldl_some ce pre
      (renderMutable ce MutableElemState.initial p₀ c₀).1
      ([] ++ (renderMutable ce MutableElemState.initial p₀ c₀).2)
      (ce p₀ c₀) (by rw [renderMutable_initial])
    simpa [runMutable] using h.1
  · have h := runImmutable_foldl_some ce rest
      (renderImmutable ce (none : ImmutableElemState) p₀ c₀).1
      ([] ++ (renderImmutable ce (none : ImmutableElemState) p₀ c₀).2)
      (ce p₀ c₀) rfl
    simpa [runImmutable, renderImmutable, ElemEvent.isCreate] using h.2
  · intro pre suf _
    have h := runImmutable_foldl_some ce pre
      (renderImmutable ce (none : ImmutableElemState) p₀ c₀).1
      ([] ++ (renderImmutable ce (none : ImmutableElemState) p₀ c₀).2)
      (ce p₀ c₀) rfl
    simpa [runImmutable] using h.1

/-- Witness for C1 at a concrete trace. -/
theorem createElementHook_creates_once_witness :
    (runMutable (fun p c => ⟨p + c, c, none⟩) [(1, 2), (3, 2), (1, 2)]).1.elementRef =
      some (⟨3, 2, none⟩ : LeafletElement) :=
  ((createElementHook_creates_once (fun p c => ⟨p + c, c, none⟩) 1 2
      [(3, 2), (1, 2)]).2.1 [(3, 2), (1, 2)] [] rfl).trans (by decide)

/-- A render of `useMutableLeafletElement` whose props reference equals the
last-applied one issues no `createElement` or `updateElement` call. -/
lemma renderMutable_same_props (ce : Nat → Nat → LeafletElement)
    (s : MutableElemState) (p c : Nat) (e : LeafletElement)
    (he : s.elementRef = some e) (hr : s.propsRef = some p) :
    (renderMutable ce s p c).2 = [] := by
  simp only [renderMutable, he, hr]
  split <;> simp

/-- C2: for `useMutableLeafletElement` (the activator that
`createElementHook` returns when `updateElement` is supplied), in any
mounted state whose last-applied props reference is `r`: a render with
props `p` calls `updateElement(instance, p, r)` exactly when `p` differs
from `r` (and makes no other call), every emitted update has distinct old
and new props references, the render records `p` as the new last-applied
reference, and a second render with the same props reference `p` issues no
further call at all, whatever the context does. -/
theorem useMutableLeafletElement_update_iff (ce : Nat → Nat → LeafletElement)
    (s : MutableElemState) (p c c' : Nat) (e : LeafletElement) (r : Nat)
    (he : s.elementRef = some e) (hr : s.propsRef = some r)
    (hd : s.prevDeps = some (e.instance_, r, c')) :
    ((renderMutable ce s p c).2 =
        if p = r then [] else [ElemEvent.update e.instance_ p r]) ∧
    (renderMutable ce s p c).1.propsRef = some p ∧
    (∀ i q q', ElemEvent.update i q q' ∈ (renderMutable ce s p c).2 → q ≠ q') ∧
    (∀ c₂, (renderMutable ce (renderMutable ce s p c).1 p c₂).2 = []) := by
  have hesome := renderMutable_some ce s p c e he
  by_cases hp : p = r
  · subst hp
    have hevs : (renderMutable ce s p c).2 = [] := by
      simp only [renderMutable, he, hr]
      split <;> simp
    have hpr : (renderMutable ce s p c).1.propsRef = some p := by
      simp only [renderMutable, he, hr]
      split <;> simp
    refine ⟨by simp [hevs], hpr, ?_, ?_⟩
    · intro i q q' hq
      rw [hevs] at hq
      simp at hq
    · intro c₂
      exact renderMutable_same_props ce _ p c₂ e hesome.1 hpr
  · have hrp : r ≠ p := fun h => hp h.symm
    have hne : s.prevDeps ≠ some (e.instance_, p, c) := by
      rw [hd]
      intro hcontra
      exact hp (congrArg (fun x => x.2.1) (Option.some.inj hcontra)).symm
    have hevs : (renderMutable ce s p c).2 = [ElemEvent.update e.instance_ p r] := by
      simp [renderMutable, he, hr, hne, hrp]
    have hpr : (renderMutable ce s p c).1.propsRef = some p := by
      simp [renderMutable, he, hr, hne, hrp]
    refine ⟨by simp [hevs, hp], hpr, ?_, ?_⟩
    · intro i q q' hq
      rw [hevs] at hq
      simp only [List.mem_singleton, ElemEvent.update.injEq] at hq
      obtain ⟨-, rfl, rfl⟩ := hq
      exact hp
    · intro c₂
      exact renderMutable_same_props ce _ p c₂ e hesome.1 hpr

/-- Witness for C2: state after a first render with props 5, context 9,
re-rendered with props 7. -/
theorem useMutableLeafletElement_update_iff_witness :
    (renderMutable (fun p c => ⟨p + c, c, none⟩)
        (⟨some ⟨14, 9, none⟩, some 5, some (14, 5, 9)⟩ : MutableElemState) 7 9).2 =
      if 7 = 5 then [] else [ElemEvent.update 14 7 5] :=
  (useMutableLeafletElement_update_iff (fun p c => ⟨p + c, c, none⟩)
      ⟨some ⟨14, 9, none⟩, some 5, some (14, 5, 9)⟩ 7 9 9 ⟨14, 9, none⟩ 5
      rfl rfl rfl).1

/-! ## Layer lifecycle (packages/core/src/layer.ts) -/

/-- The backend containers `useLayerLifecycle` touches: the root map's
layer registry and, when the context carries one, the ambient layer
container's registry. Leaflet registries are keyed by layer stamp, so a
`Finset` of instance tokens models them. `layerContainer = none` models a
context without an ambient container. -/
structure LayerWorld where
  mapLayers : Finset Nat
  layerContainer : Option (Finset Nat)
deriving DecidableEq

/-- The mount effect `addLayer` of `useLayerLifecycle`:
`(context.layerContainer ?? context.map).addLayer(element.instance)`. -/
def addLayerEffect (inst : Nat) (w : LayerWorld) : LayerWorld :=
  match w.layerContainer with
  | some cs => { w with layerContainer := some (insert inst cs) }
  | none => { w with mapLayers := insert inst w.mapLayers }

/-- The unmount cleanup `removeLayer` of `useLayerLifecycle`:
`context.layerContainer?.removeLayer(inst); context.map.removeLayer(inst)`.
The optional chaining tolerates an absent container, and Leaflet's
`removeLayer` is a no-op for a layer that is not registered. -/
def removeLayerCleanup (inst : Nat) (w : LayerWorld) : LayerWorld :=
  { mapLayers := w.mapLayers.erase inst,
    layerContainer := w.layerContainer.map (fun cs => cs.erase inst) }

/-- C3: `useLayerLifecycle` adds the layer, on mount, to the context's
layer container when one is present and to the map otherwise; its unmount
cleanup removes the layer from the container (when present) and from the
map, as total operations that also accept an already-removed layer; hence
mounting then unmounting a layer that was not already registered restores
the exact prior layer sets. -/
theorem useLayerLifecycle_attach_detach (inst : Nat) (w : LayerWorld) :
    (∀ cs, w.layerContainer = some cs →
        addLayerEffect inst w =
          { w with layerContainer := some (insert inst cs) }) ∧
    (w.layerContainer = none →
        addLayerEffect inst w = { w with mapLayers := insert inst w.mapLayers }) ∧
    (inst ∉ w.mapLayers → (∀ cs, w.layerContainer = some cs → inst ∉ cs) →
        removeLayerCleanup inst (addLayerEffect inst w) = w) ∧
    (inst ∉ w.mapLayers → (∀ cs, w.layerContainer = some cs → inst ∉ cs) →
        removeLayerCleanup inst w = w) := by
  refine ⟨?_, ?_, ?_, ?_⟩
  · intro cs hcs
    simp [addLayerEffect, hcs]
  · intro hnone
    simp [addLayerEffect, hnone]
  · intro hmap hcont
    cases hw : w.layerContainer with
    | none =>
      simp [addLayerEffect, removeLayerCleanup, hw, Finset.erase_insert hmap]
      cases w
      simp_all
    | some cs =>
      have hc := hcont cs hw
      simp [addLayerEffect, removeLayerCleanup, hw, Finset.erase_insert hc,
        Finset.erase_eq_of_not_mem hmap]
      cases w
      simp_all
  · intro hmap hcont
    cases hw : w.layerContainer with
    | none =>
      simp [removeLayerCleanup, hw, Finset.erase_eq_of_not_mem hmap]
      cases w
      simp_all
    | some cs =>
      have hc := hcont cs hw
      simp [removeLayerCleanup, hw, Finset.erase_eq_of_not_mem hmap,
        Finset.erase_eq_of_not_mem hc]
      cases w
      simp_all

/-- Witness for C3: attach then detach on a concrete world. -/
theorem useLayerLifecycle_attach_detach_witness :
    removeLayerCleanup 9 (addLayerEffect 9 ⟨{1, 2}, some {3}⟩) =
      (⟨{1, 2}, some {3}⟩ : LayerWorld) :=
  (useLayerLifecycle_attach_detach 9 ⟨{1, 2}, some {3}⟩).2.2.1
    (by decide) (by intro cs hcs; cases hcs; decide)

/-! ## Theorems about `updateClassName` (dom.ts) -/

/-- C4 counterexample: `updateClassName(el, "a b", "b c")` does issue a
`DomUtil.removeClass(el, "b")` call — token `"b"` is not left untouched. -/
theorem updateClassName_removes_b :
    ClassOp.remove "b" ∈ updateClassName true (some "a b") (some "b c") := by
  decide

/-- C4 (amended): `updateClassName(el, "a b", "b c")` removes every token
of the previous class string and then adds every token of the next one, in
order; token `"a"` ends removed, `"c"` ends added, and `"b"` is removed and
immediately re-added, so it ends present. -/
theorem updateClassName_remove_all_then_add_all :
    updateClassName true (some "a b") (some "b c") =
      [ClassOp.remove "a", ClassOp.remove "b", ClassOp.add "b", ClassOp.add "c"] ∧
    applyClassOps ["a", "b"] (updateClassName true (some "a b") (some "b c")) =
      ["b", "c"] ∧
    "a" ∉ applyClassOps ["a", "b"] (updateClassName true (some "a b") (some "b c")) ∧
    "b" ∈ applyClassOps ["a", "b"] (updateClassName true (some "a b") (some "b c")) ∧
    "c" ∈ applyClassOps ["a", "b"] (updateClassName true (some "a b") (some "b c")) := by
  decide

/-! ## Theorems about `withPane` (packages/core/src/pane.ts) -/

/-- C10 counterexample: with `props.pane` undefined and `context.pane`
defined as the empty string, `withPane` returns the props unchanged, so the
returned `pane` field does not equal `context.pane`. -/
theorem withPane_empty_context_pane :
    withPane ⟨none, 7⟩ ⟨some ""⟩ = (⟨none, 7⟩ : LayerPropsObj) ∧
    (withPane ⟨none, 7⟩ ⟨some ""⟩).pane ≠ (⟨some ""⟩ : PaneContext).pane := by
  decide

/-- C10 (amended): `withPane` resolves the pane to `props.pane` when that
is defined (even when empty, `context.pane` is then ignored), otherwise to
`context.pane`; it returns a props object carrying the resolved pane only
when that resolved pane is a non-empty string, and otherwise returns the
original props object itself, unchanged; every other field of props is
preserved in all cases. -/
theorem withPane_characterization (props : LayerPropsObj) (context : PaneContext) :
    (withPane props context).rest = props.rest ∧
    (∀ p, props.pane = some p → p ≠ "" →
        withPane props context = { props with pane := some p }) ∧
    (∀ p, props.pane = none → context.pane = some p → p ≠ "" →
        withPane props context = { props with pane := some p }) ∧
    (props.pane = none → (context.pane = none ∨ context.pane = some "") →
        withPane props context = props) ∧
    (props.pane = some "" → withPane props context = props) := by
  refine ⟨?_, ?_, ?_, ?_, ?_⟩
  · unfold withPane
    cases hp : props.pane with
    | some p =>
      by_cases h : p = "" <;> simp [h]
    | none =>
      cases hc : context.pane with
      | some q => by_cases h : q = "" <;> simp [h]
      | none => simp
  · intro p hp hne
    simp [withPane, hp, hne]
  · intro p hp hc hne
    simp [withPane, hp, hc, hne]
  · intro hp hc
    rcases hc with hc | hc <;> simp [withPane, hp, hc]
  · intro hp
    simp [withPane, hp]

/-- Witness for C10 (amended) at concrete inputs. -/
theorem withPane_characterization_witness :
    withPane ⟨none, 3⟩ ⟨some "overlay"⟩ = (⟨some "overlay", 3⟩ : LayerPropsObj) :=
  (withPane_characterization ⟨none, 3⟩ ⟨some "overlay"⟩).2.2.1 "overlay"
    rfl rfl (by decide)

/-! ## Event handlers (packages/core/src/events.ts) -/

/-- A Leaflet `Evented` call made by `useEventHandlers`: installing or
removing a handler map (`instance.on(map)` / `instance.off(map)`). Handler
maps are identity tokens. -/
inductive EvtOp where
  | on (handlers : Nat)
  | off (handlers : Nat)
deriving DecidableEq, Repr

/-- Hook state of `useEventHandlers`: `eventHandlersRef.current` (where
`none` models both the initial `undefined` and an explicit `null`) and
React's record of the `addEventHandlers` effect's dependency tuple
`[element, eventHandlers]` from the previous render. -/
structure EventHandlersState where
  handlersRef : Option Nat
  prevDeps : Option (Nat × Option Nat)
deriving DecidableEq, Repr

/-- The hook state before the component's first render. -/
def EventHandlersState.initial : EventHandlersState := ⟨none, none⟩

/-- The cleanup `removeEventHandlers` from events.ts: `off` the map stored
in `eventHandlersRef.current` when non-null, then null the ref. -/
def eventHandlersCleanup (s : EventHandlersState) : EventHandlersState × List EvtOp :=
  match s.handlersRef with
  | some m => ({ s with handlersRef := none }, [EvtOp.off m])
  | none => ({ s with handlersRef := none }, [])

/-- One render of `useEventHandlers` with element `element` and handler
map `handlers`, followed by its commit phase. The `addEventHandlers` effect
(deps `[element, eventHandlers]`) re-runs when its deps changed; React
first runs the previous run's cleanup (when the effect has run before),
then the body, which installs the non-null handler map and records it in
the ref. -/
def renderEventHandlers (element : Nat) (handlers : Option Nat)
    (s : EventHandlersState) : EventHandlersState × List EvtOp :=
  let deps := (element, handlers)
  if s.prevDeps = some deps then (s, [])
  else
    let cleaned := match s.prevDeps with
      | none => (s, [])
      | some _ => eventHandlersCleanup s
    let onEvs := match handlers with
      | some m => [EvtOp.on m]
      | none => []
    ({ handlersRef := handlers, prevDeps := some deps }, cleaned.2 ++ onEvs)

/-- Unmounting the component: React runs the cleanup of the last effect
run, when there was one. -/
def unmountEventHandlers (s : EventHandlersState) : EventHandlersState × List EvtOp :=
  match s.prevDeps with
  | none => (s, [])
  | some _ => eventHandlersCleanup s

/-- A whole sequence of renders of `useEventHandlers`, accumulating the
`on`/`off` calls. -/
def runEventHandlers (inputs : List (Nat × Option Nat)) :
    EventHandlersState × List EvtOp :=
  inputs.foldl
    (fun acc i =>
      let step := renderEventHandlers i.1 i.2 acc.1
      (step.1, acc.2 ++ step.2))
    (EventHandlersState.initial, [])

/-- Effect of one `on`/`off` call on the set of handler maps currently
installed on the instance. -/
def applyEvtOp (active : Finset Nat) : EvtOp → Finset Nat
  | .on m => insert m active
  | .off m => active.erase m

/-- The set of handler maps installed after a sequence of calls. -/
def activeAfter (ops : List EvtOp) : Finset Nat :=
  ops.foldl applyEvtOp ∅

/-- The handler maps a ref value accounts for: none or a singleton. -/
def evtRefSet : Option Nat → Finset Nat
  | none => ∅
  | some m => {m}

/-- After every single call of the sequence, at most one handler map is
installed. -/
def boundedActive (active : Finset Nat) : List EvtOp → Prop
  | [] => True
  | op :: rest =>
      (applyEvtOp active op).card ≤ 1 ∧ boundedActive (applyEvtOp active op) rest

lemma boundedActive_append (a : Finset Nat) (xs ys : List EvtOp) :
    boundedActive a (xs ++ ys) ↔
      boundedActive a xs ∧ boundedActive (xs.foldl applyEvtOp a) ys := by
  induction xs generalizing a with
  | nil => simp [boundedActive]
  | cons x xs ih => simp [boundedActive, ih, and_assoc]

/-- One render of `useEventHandlers` preserves the ref/active-set
correspondence and keeps at most one handler map installed throughout. -/
lemma renderEventHandlers_step (element : Nat) (handlers : Option Nat)
    (s : EventHandlersState) (hinv : s.prevDeps = none → s.handlersRef = none) :
    ((renderEventHandlers element handlers s).1.prevDeps = none →
        (renderEventHandlers element handlers s).1.handlersRef = none) ∧
    (renderEventHandlers element handlers s).2.foldl applyEvtOp
        (evtRefSet s.handlersRef) =
      evtRefSet (renderEventHandlers element handlers s).1.handlersRef ∧
    boundedActive (evtRefSet s.handlersRef)
      (renderEventHandlers element handlers s).2 := by
  by_cases hif : s.prevDeps = some (element, handlers)
  · refine ⟨?_, ?_, ?_⟩ <;> simp [renderEventHandlers, hif, boundedActive]
  · cases hd : s.prevDeps with
    | none =>
      have hr := hinv hd
      cases handlers <;>
        refine ⟨?_, ?_, ?_⟩ <;>
          simp [renderEventHandlers, hd, hr, boundedActive, applyEvtOp, evtRefSet]
    | some d =>
      have hdne : d ≠ (element, handlers) := by
        rw [hd] at hif
        simpa using hif
      cases hr : s.handlersRef with
      | none =>
        cases handlers <;>
          refine ⟨?_, ?_, ?_⟩ <;>
            simp [renderEventHandlers, hd, hr, hdne, eventHandlersCleanup,
              boundedActive, applyEvtOp, evtRefSet]
      | some m =>
        cases handlers <;>
          refine ⟨?_, ?_, ?_⟩ <;>
            simp [renderEventHandlers, hd, hr, hdne, eventHandlersCleanup,
              boundedActive, applyEvtOp, evtRefSet]

/-- Fold form of the step lemma over a whole render trace. -/
lemma runEventHandlers_foldl (inputs : List (Nat × Option Nat))
    (s : EventHandlersState) (evs : List EvtOp)
    (hinv : s.prevDeps = none → s.handlersRef = none)
    (hact : activeAfter evs = evtRefSet s.handlersRef)
    (hbnd : boundedActive ∅ evs) :
    ((inputs.foldl
        (fun acc i =>
          let step := renderEventHandlers i.1 i.2 acc.1
          (step.1, acc.2 ++ step.2)) (s, evs)).1.prevDeps = none →
      (inputs.foldl
        (fun acc i =>
          let step := renderEventHandlers i.1 i.2 acc.1
          (step.1, acc.2 ++ step.2)) (s, evs)).1.handlersRef = none) ∧
    activeAfter (inputs.foldl
        (fun acc i =>
          let step := renderEventHandlers i.1 i.2 acc.1
          (step.1, acc.2 ++ step.2)) (s, evs)).2 =
      evtRefSet (inputs.foldl
        (fun acc i =>
          let step := renderEventHandlers i.1 i.2 acc.1
          (step.1, acc.2 ++ step.2)) (s, evs)).1.handlersRef ∧
    boundedActive ∅ (inputs.foldl
        (fun acc i =>
          let step := renderEventHandlers i.1 i.2 acc.1
          (step.1, acc.2 ++ step.2)) (s, evs)).2 := by
  induction inputs generalizing s evs with
  | nil => exact ⟨hinv, hact, hbnd⟩
  | cons i rest ih =>
    obtain ⟨h1, h2, h3⟩ := renderEventHandlers_step i.1 i.2 s hinv
    rw [List.foldl_cons]
    refine ih (renderEventHandlers i.1 i.2 s).1
      (evs ++ (renderEventHandlers i.1 i.2 s).2) h1 ?_ ?_
    · rw [activeAfter, List.foldl_append, ← activeAfter, hact]
      exact h2
    · rw [boundedActive_append]
      exact ⟨hbnd, by rw [← activeAfter, hact]; exact h3⟩

/-- Running the unmount cleanup from any state satisfying the reachability
invariant leaves no handler map installed. -/
lemma unmountEventHandlers_clears (s : EventHandlersState)
    (hinv : s.prevDeps = none → s.handlersRef = none) :
    (unmountEventHandlers s).2.foldl applyEvtOp (evtRefSet s.handlersRef) = ∅ := by
  cases hd : s.prevDeps with
  | none => simp [unmountEventHandlers, hd, hinv hd, evtRefSet]
  | some d =>
    cases hr : s.handlersRef with
    | none => simp [unmountEventHandlers, hd, hr, eventHandlersCleanup, evtRefSet]
    | some m =>
      simp [unmountEventHandlers, hd, hr, eventHandlersCleanup, evtRefSet, applyEvtOp]

/-- C6: for `useEventHandlers`, (a) when the handler map changes from `m1`
to `m2` on the same instance, the calls of that render are exactly
`off(m1)` then `on(m2)` — the uninstall precedes the install; (b) whenever
the effect has run and a map is recorded as installed, unmounting issues
exactly `off` of that map; (c) along every render trace, after every
single backend call at most one handler map is installed on the instance,
the installed set always matches the ref, and a trace followed by its
unmount leaves no handler map installed. -/
theorem useEventHandlers_single_generation :
    (∀ e m1 m2 s, s.handlersRef = some m1 → s.prevDeps = some (e, some m1) →
        m1 ≠ m2 →
        (renderEventHandlers e (some m2) s).2 = [EvtOp.off m1, EvtOp.on m2] ∧
        (renderEventHandlers e (some m2) s).1.handlersRef = some m2) ∧
    (∀ s d m, s.prevDeps = some d → s.handlersRef = some m →
        (unmountEventHandlers s).2 = [EvtOp.off m] ∧
        (unmountEventHandlers s).1.handlersRef = none) ∧
    (∀ inputs,
        boundedActive ∅ (runEventHandlers inputs).2 ∧
        activeAfter (runEventHandlers inputs).2 =
          evtRefSet (runEventHandlers inputs).1.handlersRef ∧
        activeAfter ((runEventHandlers inputs).2 ++
            (unmountEventHandlers (runEventHandlers inputs).1).2) = ∅) := by
  refine ⟨?_, ?_, ?_⟩
  · intro e m1 m2 s h1 h2 hne
    constructor <;>
      simp [renderEventHandlers, h1, h2, hne, eventHandlersCleanup]
  · intro s d m hd hm
    constructor <;> simp [unmountEventHandlers, hd, hm, eventHandlersCleanup]
  · intro inputs
    have h := runEventHandlers_foldl inputs EventHandlersState.initial []
      (fun _ => rfl) (by simp [activeAfter, evtRefSet, EventHandlersState.initial])
      trivial
    rw [runEventHandlers]
    refine ⟨h.2.2, h.2.1, ?_⟩
    rw [activeAfter, List.foldl_append, ← activeAfter, h.2.1]
    exact unmountEventHandlers_clears _ h.1

/-- Witness for C6: swapping handler map 1 for handler map 2 on element 5. -/
theorem useEventHandlers_single_generation_witness :
    (renderEventHandlers 5 (some 2) ⟨some 1, some (5, some 1)⟩).2 =
      [EvtOp.off 1, EvtOp.on 2] :=
  (useEventHandlers_single_generation.1 5 1 2 ⟨some 1, some (5, some 1)⟩
    rfl rfl (by decide)).1

/-! ## Attribution sync (packages/core/src/attribution.ts) -/

/-- A call made by `useAttribution` on the map's attribution control. -/
inductive AttrOp where
  | removeAttribution (text : String)
  | addAttribution (text : String)
deriving DecidableEq, Repr

/-- Hook state of `useAttribution` once the component has rendered:
`attributionRef.current` and React's record of the `updateAttribution`
effect's dependency tuple `[map, attribution]` from the previous render.
The whole state is `none` before the first render. -/
structure MountedAttrState where
  attributionRef : Option String
  prevDeps : Nat × Option String
deriving DecidableEq, Repr

/-- One render of `useAttribution` with map `mapId` (whose
`attributionControl` exists exactly when `hasControl`) and attribution
`attribution`, followed by its commit phase. On the first render
`useRef(attribution)` seeds the ref with the current attribution, so the
guard `attribution !== attributionRef.current` fails and no call is made.
On later renders the `updateAttribution` effect (deps `[map, attribution]`)
runs when its deps changed: when the attribution changed and the control
exists, it removes the previous non-null string and adds the new non-null
one; the ref is then set to the current attribution unconditionally. -/
def renderAttribution (mapId : Nat) (hasControl : Bool) (attribution : Option String)
    (s : Option MountedAttrState) : MountedAttrState × List AttrOp :=
  match s with
  | none =>
    let ref0 := attribution
    let evs :=
      if attribution ≠ ref0 ∧ hasControl then
        (match ref0 with
          | some prev => [AttrOp.removeAttribution prev]
          | none => []) ++
        (match attribution with
          | some next => [AttrOp.addAttribution next]
          | none => [])
      else []
    (⟨attribution, (mapId, attribution)⟩, evs)
  | some st =>
    let deps := (mapId, attribution)
    if st.prevDeps = deps then (st, [])
    else
      let evs :=
        if attribution ≠ st.attributionRef ∧ hasControl then
          (match st.attributionRef with
            | some prev => [AttrOp.removeAttribution prev]
            | none => []) ++
          (match attribution with
            | some next => [AttrOp.addAttribution next]
            | none => [])
        else []
      (⟨attribution, deps⟩, evs)

/-- Effect of an attribution call on the set of strings currently shown by
the attribution control (Leaflet keys them by text). -/
def applyAttrOp (shown : Finset String) : AttrOp → Finset String
  | .removeAttribution t => shown.erase t
  | .addAttribution t => insert t shown

/-- C7: for `useAttribution`, when the attribution changes from string `A`
to a different string `B` while the map's attribution control exists, the
render issues exactly one `removeAttribution(A)` and one
`addAttribution(B)`, in that order, and records `B`; consequently, starting
from a control showing `A` and not `B`, no point of the call sequence shows
both `A` and `B` together; and a render whose attribution is null issues
no `addAttribution` call at all. -/
theorem useAttribution_swap (mapId mapId' : Nat) (st : MountedAttrState)
    (A B : String) (hA : st.attributionRef = some A)
    (hd : st.prevDeps = (mapId', some A)) (hne : A ≠ B) :
    (renderAttribution mapId true (some B) (some st)).2 =
      [AttrOp.removeAttribution A, AttrOp.addAttribution B] ∧
    (renderAttribution mapId true (some B) (some st)).1.attributionRef = some B ∧
    (∀ shown : Finset String, A ∈ shown → B ∉ shown →
      ∀ pre suf, (renderAttribution mapId true (some B) (some st)).2 = pre ++ suf →
        ¬(A ∈ pre.foldl applyAttrOp shown ∧ B ∈ pre.foldl applyAttrOp shown)) ∧
    (∀ hc s' t, AttrOp.addAttribution t ∉ (renderAttribution mapId hc none s').2) := by
  have hevs : (renderAttribution mapId true (some B) (some st)).2 =
      [AttrOp.removeAttribution A, AttrOp.addAttribution B] := by
    simp [renderAttribution, hA, hd, hne, Ne.symm hne]
  refine ⟨hevs, by simp [renderAttribution, hA, hd, hne, Ne.symm hne], ?_, ?_⟩
  · intro shown hAin hBout pre suf hsplit
    rw [hevs] at hsplit
    rcases pre with _ | ⟨x, _ | ⟨y, pre⟩⟩
    · simpa using fun _ => hBout
    · simp only [List.cons_append, List.nil_append, List.cons.injEq] at hsplit
      rw [← hsplit.1]
      simp [applyAttrOp]
    · simp only [List.cons_append, List.cons.injEq] at hsplit
      have h1 := hsplit.1
      have h2 := hsplit.2.1
      have h3 := hsplit.2.2
      have hpre : pre = [] := by
        cases pre with
        | nil => rfl
        | cons z zs => exact absurd h3.symm (by simp)
      subst hpre
      rw [← h1, ← h2]
      simp [applyAttrOp, Finset.mem_insert, Finset.mem_erase, hne]
  · intro hc s' t
    cases s' with
    | none => simp [renderAttribution]
    | some st' =>
      by_cases hdeq : st'.prevDeps = (mapId, (none : Option String))
      · simp [renderAttribution, hdeq]
      · cases hr : st'.attributionRef with
        | none => simp [renderAttribution, hdeq, hr]
        | some prev => simp [renderAttribution, hdeq, hr]

/-- Witness for C7: switching the attribution from "A" to "B". -/
theorem useAttribution_swap_witness :
    (renderAttribution 3 true (some "B") (some ⟨some "A", (3, some "A")⟩)).2 =
      [AttrOp.removeAttribution "A", AttrOp.addAttribution "B"] :=
  (useAttribution_swap 3 3 ⟨some "A", (3, some "A")⟩ "A" "B" rfl rfl
    (by decide)).1

/-! ## Control hook (packages/core/src/control.ts) -/

/-- The props of a wrapped control: the object's identity token and its
`position` field (`none` models a missing position). -/
structure ControlProps where
  id : Nat
  position : Option String
deriving DecidableEq, Repr

/-- A call made while rendering `useLeafletControl`: creating the control
instance, `instance.addTo(map)`, the cleanup `instance.remove()`, or
`instance.setPosition(p)`. -/
inductive CtrlOp where
  | create (props : Nat)
  | addTo (instance_ mapId : Nat)
  | removeControl (instance_ : Nat)
  | setPosition (instance_ : Nat) (position : String)
deriving DecidableEq, Repr

/-- Hook state of `useLeafletControl` (createControlHook applied to an
immutable element hook, as `createControlComponent` wires it):
`elementRef` of the inner `useImmutableLeafletElement`, the `positionRef`
(`useRef(position)`, outer `none` before the first render), and React's
records of the dependency tuples of the `addControl` effect
(`[context.map, instance]`) and the `updateControl` effect
(`[instance, position]`). -/
structure ControlHookState where
  elementRef : Option LeafletElement
  positionRef : Option (Option String)
  prevDepsAdd : Option (Nat × Nat)
  prevDepsUpd : Option (Nat × Option String)
deriving DecidableEq, Repr

/-- The hook state before the component's first render. -/
def ControlHookState.initial : ControlHookState := ⟨none, none, none, none⟩

/-- One render of `useLeafletControl` with props `props` and root map
`ctxMap`, followed by its commit phase. The body runs the immutable
element hook (create once) and seeds `positionRef` on the first render;
the `addControl` effect re-runs when `[context.map, instance]` changed,
first removing the previously added control, then adding the control to
the map; the `updateControl` effect re-runs when `[instance, position]`
changed and calls `setPosition` exactly when the position is non-null and
differs from `positionRef.current`, recording the new position. -/
def renderControl (ce : Nat → Nat → LeafletElement) (props : ControlProps)
    (ctxMap : Nat) (s : ControlHookState) : ControlHookState × List CtrlOp :=
  -- body: useElement(props, context), immutable variant
  let created := match s.elementRef with
    | none => (ce props.id ctxMap, [CtrlOp.create props.id])
    | some e => (e, [])
  let elt := created.1
  let position := props.position
  let positionRef0 := match s.positionRef with
    | none => position    -- useRef(position): seeded on the first render
    | some r => r
  -- commit phase: effect addControl, deps [context.map, instance]
  let depsAdd := (ctxMap, elt.instance_)
  let addPart :=
    if s.prevDepsAdd = some depsAdd then ([] : List CtrlOp)
    else
      (match s.prevDepsAdd with
        | some prev => [CtrlOp.removeControl prev.2]
        | none => []) ++ [CtrlOp.addTo elt.instance_ ctxMap]
  -- commit phase: effect updateControl, deps [instance, position]
  let depsUpd := (elt.instance_, position)
  let updPart :=
    if s.prevDepsUpd = some depsUpd then (positionRef0, ([] : List CtrlOp))
    else
      match position with
      | some p =>
          if (some p : Option String) ≠ positionRef0 then
            ((some p : Option String), [CtrlOp.setPosition elt.instance_ p])
          else (positionRef0, [])
      | none => (positionRef0, [])
  (⟨some elt, some updPart.1, some depsAdd, some depsUpd⟩,
    created.2 ++ addPart ++ updPart.2)

/-- C8: for the hook returned by `createControlHook`, (i) in a mounted
state, `setPosition` is called only when the position prop is non-null and
differs (by value) from the last position recorded in `positionRef`;
(ii) repeating a render with the identical props and map issues no backend
call at all — in particular, setting `position` to the same value on two
successive renders issues at most one `setPosition` call; (iii) no render
re-creates an existing control instance: the stored element survives
unchanged and no create call is issued. -/
theorem createControlHook_position (ce : Nat → Nat → LeafletElement)
    (props : ControlProps) (ctxMap : Nat) (s : ControlHookState) :
    (∀ e r, s.elementRef = some e → s.positionRef = some r →
        ∀ i p, CtrlOp.setPosition i p ∈ (renderControl ce props ctxMap s).2 →
          props.position = some p ∧ (some p : Option String) ≠ r) ∧
    (renderControl ce props ctxMap (renderControl ce props ctxMap s).1).2 = [] ∧
    (∀ e, s.elementRef = some e →
        (renderControl ce props ctxMap s).1.elementRef = some e ∧
        ∀ q, CtrlOp.create q ∉ (renderControl ce props ctxMap s).2) := by
  refine ⟨?_, ?_, ?_⟩
  · intro e r he hr i p hmem
    simp only [renderControl, he, hr] at hmem
    rcases hp : props.position with _ | p' <;> rw [hp] at hmem <;>
      repeat' split at hmem
    all_goals simp_all
  · rcases s with ⟨er, pr, da, du⟩
    cases er <;> simp [renderControl]
  · intro e he
    constructor
    · simp [renderControl, he]
    · intro q hmem
      simp only [renderControl, he] at hmem
      repeat' split at hmem
      all_goals simp_all

/-- Witness for C8: a mounted control state re-rendered with the same
props keeps its element. -/
theorem createControlHook_position_witness :
    (renderControl (fun p c => ⟨p + c, c, none⟩) ⟨4, some "topright"⟩ 2
        ⟨some ⟨6, 2, none⟩, some (some "topright"), some (2, 6),
          some (6, some "topright")⟩).1.elementRef =
      some (⟨6, 2, none⟩ : LeafletElement) :=
  ((createControlHook_position (fun p c => ⟨p + c, c, none⟩) ⟨4, some "topright"⟩ 2
      ⟨some ⟨6, 2, none⟩, some (some "topright"), some (2, 6),
        some (6, some "topright")⟩).2.2 ⟨6, 2, none⟩ rfl).1

/-! ## Pane component (react-leaflet Pane.tsx) -/

/-- `DEFAULT_PANES` from Pane.tsx: the pane names Leaflet predefines. -/
def DEFAULT_PANES : List String :=
  ["mapPane", "markerPane", "overlayPane", "popupPane", "shadowPane",
    "tilePane", "tooltipPane"]

/-- The DOM element Leaflet creates for a pane: its class list and its
inline style entries. -/
structure PaneDomElement where
  classes : List String
  style : List (String × String)
deriving DecidableEq, Repr

/-- The slice of the Leaflet map's state the Pane component touches: the
internal `_panes` and `_paneRenderers` registries, modelled by their key
sets. -/
structure MapState where
  panes : Finset String
  paneRenderers : Finset String
deriving DecidableEq

/-- `map.getPane(name)`: a pane handle when the name is registered. -/
def MapState.getPane (m : MapState) (name : String) : Option String :=
  if name ∈ m.panes then some name else none

/-- The backend `map.createPane(name, parent)`: registers the new pane in
`_panes` (renderers are created lazily, so `_paneRenderers` is untouched). -/
def MapState.createPaneBackend (m : MapState) (name : String) : MapState :=
  { m with panes := insert name m.panes }

/-- `PaneProps` from Pane.tsx (children are irrelevant to the backend
interaction and omitted). Styles are modelled as key/value entries. -/
structure PaneProps where
  className : Option String
  name : String
  pane : Option String
  style : Option (List (String × String))
deriving DecidableEq, Repr

/-- `element.style[key] = value`: set one inline style entry. -/
def setStyleProp (style : List (String × String)) (kv : String × String) :
    List (String × String) :=
  if (style.map Prod.fst).contains kv.1 then
    style.map (fun e => if e.1 = kv.1 then (e.1, kv.2) else e)
  else style ++ [kv]

/-- `createPane(name, props, context)` from Pane.tsx: reject reserved
default names, reject a name with an existing pane, resolve the parent
pane from `props.pane ?? context.pane` (a defined empty string is falsy
and yields no parent lookup), create the pane in the backend, then apply
the user's `className` and `style` to the new DOM element. Errors are the
thrown `Error` messages. -/
def createPane (name : String) (props : PaneProps) (ctxPane : Option String)
    (m : MapState) : Except String (PaneDomElement × MapState) :=
  if DEFAULT_PANES.contains name then
    .error ("You must use a unique name for a pane that is not a default Leaflet pane: "
      ++ name)
  else if (m.getPane name).isSome then
    .error ("A pane with this name already exists: " ++ name)
  else
    let parentPaneName := match props.pane with
      | some p => some p
      | none => ctxPane
    let _parentPane := match parentPaneName with
      | some p => if p ≠ "" then m.getPane p else none
      | none => none
    let m' := m.createPaneBackend name
    let el0 : PaneDomElement := ⟨[], []⟩
    let el1 := match props.className with
      | some c => { el0 with classes := applyClassOps el0.classes (addClassName c) }
      | none => el0
    let el2 := match props.style with
      | some st => { el1 with style := st.foldl setStyleProp el1.style }
      | none => el1
    .ok (el2, m')

/-- `removeCreatedPane` from Pane.tsx (the mount effect's cleanup):
`pane?.remove?.()` detaches the DOM node, then `omitPane` drops the pane's
key from both `map._panes` and `map._paneRenderers`. -/
def removeCreatedPane (paneName : String) (m : MapState) : MapState :=
  { panes := m.panes.erase paneName,
    paneRenderers := m.paneRenderers.erase paneName }

/-- Mounted state of a `PaneComponent` instance: the pane name captured by
`useState(props.name)` on the first render, and the created DOM element
held in the `paneElement` state. -/
structure PaneCompState where
  paneName : String
  paneElement : Option PaneDomElement
deriving DecidableEq, Repr

/-- The first render of `PaneComponent` followed by its mount effect:
`useState(props.name)` captures the name, and the effect (deps `[]`)
creates the pane via `createPane(paneName, props, context)`, storing the
element; an exception in `createPane` propagates. -/
def paneMount (props : PaneProps) (ctxPane : Option String) (m : MapState) :
    Except String (PaneCompState × MapState) :=
  match createPane props.name props ctxPane m with
  | .error e => .error e
  | .ok (el, m') => .ok (⟨props.name, some el⟩, m')

/-- A re-render of a mounted `PaneComponent` with new props:
`useState` keeps the captured name (no setter for it is ever called) and
the mount effect's dependency list `[]` never changes, so the effect does
not re-run; neither the component state nor the map changes. -/
def paneRerender (_props : PaneProps) (s : PaneCompState) (m : MapState) :
    PaneCompState × MapState :=
  (s, m)

/-- The context re-published for the pane's children on every render:
`{ ...context, pane: paneName }` with the state-captured name. -/
def paneChildContext (_context : PaneContext) (s : PaneCompState) : PaneContext :=
  ⟨some s.paneName⟩

/-- Unmounting a `PaneComponent`: the mount effect's cleanup runs with the
captured name. -/
def paneUnmount (s : PaneCompState) (m : MapState) : MapState :=
  removeCreatedPane s.paneName m

/-- A successful `createPane` registers exactly the requested name. -/
lemma createPane_ok_mem (name : String) (props : PaneProps)
    (ctxPane : Option String) (m : MapState) (el : PaneDomElement)
    (m' : MapState) (h : createPane name props ctxPane m = .ok (el, m')) :
    m'.panes = insert name m.panes := by
  unfold createPane at h
  split at h
  · exact absurd h (by simp)
  · split at h
    · exact absurd h (by simp)
    · simp only [Except.ok.injEq, Prod.mk.injEq] at h
      rw [← h.2]
      rfl

/-- `createPane` succeeds on a non-reserved, unregistered name and
registers exactly that name. -/
lemma createPane_ok_of_free (name : String) (props : PaneProps)
    (ctxPane : Option String) (m : MapState) (h1 : name ∉ DEFAULT_PANES)
    (h2 : name ∉ m.panes) :
    ∃ el m', createPane name props ctxPane m = .ok (el, m') ∧
      m'.panes = insert name m.panes := by
  have hA : ¬(DEFAULT_PANES.contains name = true) := by simpa using h1
  have hB : ¬((m.getPane name).isSome = true) := by simp [MapState.getPane, h2]
  unfold createPane
  rw [if_neg hA, if_neg hB]
  exact ⟨_, _, rfl, rfl⟩

/-- C5: `createPane` throws for a reserved default pane name such as
`"tilePane"`, and throws when a pane with the requested name already
exists on the map; the pane teardown removes the pane's entry from both
internal registries (`_panes` and `_paneRenderers`), after which creating
a pane with the same (non-reserved) name succeeds again. -/
theorem createPane_reserved_duplicate_teardown (name : String)
    (props props' : PaneProps) (ctxPane ctxPane' : Option String)
    (m : MapState) :
    (∃ msg, createPane "tilePane" props ctxPane m = .error msg) ∧
    (name ∈ m.panes → ∃ msg, createPane name props ctxPane m = .error msg) ∧
    (name ∉ (removeCreatedPane name m).panes ∧
      name ∉ (removeCreatedPane name m).paneRenderers) ∧
    (name ∉ DEFAULT_PANES →
      ∃ el m', createPane name props' ctxPane' (removeCreatedPane name m) =
          .ok (el, m') ∧ name ∈ m'.panes) := by
  refine ⟨?_, ?_, ?_, ?_⟩
  · exact ⟨"You must use a unique name for a pane that is not a default Leaflet pane: tilePane",
      by simp [createPane, show ("tilePane" : String) ∈ DEFAULT_PANES from by decide]⟩
  · intro hmem
    by_cases hres : name ∈ DEFAULT_PANES
    · exact ⟨"You must use a unique name for a pane that is not a default Leaflet pane: " ++ name,
        by simp [createPane, hres]⟩
    · exact ⟨"A pane with this name already exists: " ++ name,
        by simp [createPane, hres, MapState.getPane, hmem]⟩
  · simp [removeCreatedPane]
  · intro hres
    obtain ⟨el, m', hok, hm⟩ := createPane_ok_of_free name props' ctxPane'
      (removeCreatedPane name m) hres (by simp [removeCreatedPane])
    exact ⟨el, m', hok, by rw [hm]; exact Finset.mem_insert_self name _⟩

/-- Witness for C5 at concrete inputs. -/
theorem createPane_reserved_duplicate_teardown_witness :
    ∃ msg, createPane "tilePane" ⟨none, "tilePane", none, none⟩ none
        (⟨∅, ∅⟩ : MapState) = .error msg :=
  (createPane_reserved_duplicate_teardown "myPane" ⟨none, "tilePane", none, none⟩
    ⟨none, "myPane", none, none⟩ none none ⟨∅, ∅⟩).1

/-- Re-renders of a mounted `PaneComponent` change nothing, whatever props
they carry. -/
lemma paneRerender_foldl_id (ps : List PaneProps) (acc : PaneCompState × MapState) :
    ps.foldl (fun sm p => paneRerender p sm.1 sm.2) acc = acc := by
  induction ps generalizing acc with
  | nil => rfl
  | cons p rest ih => exact ih acc

/-- C9: for a `PaneComponent` instance whose mount succeeded, the name
captured at the first render is the one used everywhere: the created pane
carries it, any sequence of re-renders — with arbitrary later `name`
props — leaves both the component state and the map unchanged (no new
pane, no rename, no removal while mounted), the context derived for the
children carries the captured name, and the unmount teardown removes
exactly the captured name from the registry. -/
theorem pane_name_fixed (props₀ : PaneProps) (ctxPane : Option String)
    (ctx : PaneContext) (m : MapState) (s : PaneCompState) (m' : MapState)
    (hmount : paneMount props₀ ctxPane m = .ok (s, m')) :
    s.paneName = props₀.name ∧
    props₀.name ∈ m'.panes ∧
    (∀ ps : List PaneProps,
        ps.foldl (fun sm p => paneRerender p sm.1 sm.2) (s, m') = (s, m')) ∧
    paneChildContext ctx s = ⟨some props₀.name⟩ ∧
    (∀ ps : List PaneProps,
        paneUnmount (ps.foldl (fun sm p => paneRerender p sm.1 sm.2) (s, m')).1
            (ps.foldl (fun sm p => paneRerender p sm.1 sm.2) (s, m')).2 =
          removeCreatedPane props₀.name m') ∧
    props₀.name ∉ (paneUnmount s m').panes := by
  unfold paneMount at hmount
  cases hc : createPane props₀.name props₀ ctxPane m with
  | error e =>
    rw [hc] at hmount
    exact absurd hmount (by simp)
  | ok r =>
    obtain ⟨el, m2⟩ := r
    rw [hc] at hmount
    simp only [Except.ok.injEq, Prod.mk.injEq] at hmount
    obtain ⟨hs, hm⟩ := hmount
    subst hm
    have hname : s.paneName = props₀.name := by rw [← hs]
    refine ⟨hname, ?_, fun ps => paneRerender_foldl_id ps (s, m2), ?_, ?_, ?_⟩
    · rw [createPane_ok_mem props₀.name props₀ ctxPane m el m2 hc]
      exact Finset.mem_insert_self _ _
    · simp [paneChildContext, hname]
    · intro ps
      rw [paneRerender_foldl_id ps (s, m2)]
      simp [paneUnmount, hname]
    · simp [paneUnmount, removeCreatedPane, hname]

/-- Witness for C9: a concrete mounted pane. -/
theorem pane_name_fixed_witness :
    "myPane" ∉ (paneUnmount ⟨"myPane", some ⟨[], []⟩⟩
        ⟨insert "myPane" ∅, ∅⟩).panes :=
  (pane_name_fixed ⟨none, "myPane", none, none⟩ none ⟨none⟩ ⟨∅, ∅⟩
      ⟨"myPane", some ⟨[], []⟩⟩ ⟨insert "myPane" ∅, ∅⟩ rfl).2.2.2.2.2

end ReactLeaflet
